import Mathlib

/- Verification development for the AnalyticsProxy core: the deduplicating
script-resource cache (ScriptLoader), the bounded readiness-polling protocol of
the destination adapters, the BaseProvider operations with payload enrichment,
the Mixpanel property remapping, and the AnalyticsProxy dispatcher. -/

/-- JavaScript values as they appear in property bags: a defined value rendered
as a string, or the undefined value (`none`). -/
abbrev JsVal := Option String

/-- A JavaScript object: an insertion-ordered association list from string keys
to values.  Objects built by the modelled code keep their keys unique. -/
abbrev Obj := List (String × JsVal)

/-- Property assignment `o[k] = v`: replace the value in place when the key is
already present, append the new entry otherwise (JavaScript object-assignment
order). -/
def objSet : Obj → String → JsVal → Obj
  | [], k, v => [(k, v)]
  | kv :: rest, k, v => if kv.1 = k then (k, v) :: rest else kv :: objSet rest k v

/-- Property lookup `o[k]` (first matching key). -/
def objGet : Obj → String → Option JsVal
  | [], _ => none
  | kv :: rest, k => if kv.1 = k then some kv.2 else objGet rest k

/-- Object spread: the entries of `b` assigned over a copy of `a` in order,
modelling the JavaScript spread of `b` after `a` in one object literal. -/
def objSpread (a b : Obj) : Obj :=
  b.foldl (fun o kv => objSet o kv.1 kv.2) a

theorem objGet_objSet (o : Obj) (k : String) (v : JsVal) (q : String) :
    objGet (objSet o k v) q = if q = k then some v else objGet o q := by
  induction o with
  | nil =>
    by_cases h : q = k
    · simp [objSet, objGet, h]
    · have h' : ¬ k = q := fun he => h he.symm
      simp [objSet, objGet, h, h']
  | cons kv rest ih =>
    by_cases h1 : kv.1 = k
    · subst h1
      by_cases h2 : q = kv.1
      · simp [objSet, objGet, h2]
      · have h2' : ¬ kv.1 = q := fun he => h2 he.symm
        simp [objSet, objGet, h2, h2']
    · by_cases h2 : kv.1 = q
      · have hqk : ¬ q = k := fun he => h1 (h2.trans he)
        simp [objSet, objGet, h1, h2, hqk]
      · simp [objSet, objGet, h1, h2, ih]

theorem objGet_eq_none_iff (o : Obj) (k : String) :
    objGet o k = none ↔ k ∉ o.map (fun kv => kv.1) := by
  induction o with
  | nil => simp [objGet]
  | cons kv rest ih =>
    by_cases h : kv.1 = k
    · simp [objGet, h]
    · have h' : ¬ k = kv.1 := fun he => h he.symm
      simp [objGet, h, h', ih]

theorem objGet_eq_some_mem (o : Obj) (k : String) (v : JsVal)
    (h : objGet o k = some v) : (k, v) ∈ o := by
  induction o with
  | nil => simp [objGet] at h
  | cons kv rest ih =>
    by_cases h1 : kv.1 = k
    · simp [objGet, h1] at h
      subst h1
      subst h
      exact List.mem_cons_self _ _
    · simp [objGet, h1] at h
      exact List.mem_cons_of_mem _ (ih h)

theorem objGet_objSpread_not_mem (a b : Obj) (k : String)
    (h : k ∉ b.map (fun kv => kv.1)) :
    objGet (objSpread a b) k = objGet a k := by
  induction b generalizing a with
  | nil => rfl
  | cons kv rest ih =>
    simp only [List.map_cons, List.mem_cons] at h
    push_neg at h
    show objGet (objSpread (objSet a kv.1 kv.2) rest) k = objGet a k
    rw [ih _ h.2, objGet_objSet]
    simp [h.1]

theorem objGet_objSpread_mem (a b : Obj) (k : String) (v : JsVal)
    (hnd : (b.map (fun kv => kv.1)).Nodup) (hm : (k, v) ∈ b) :
    objGet (objSpread a b) k = some v := by
  induction b generalizing a with
  | nil => cases hm
  | cons kv rest ih =>
    show objGet (objSpread (objSet a kv.1 kv.2) rest) k = some v
    simp only [List.map_cons, List.nodup_cons] at hnd
    rcases List.mem_cons.mp hm with h | h
    · cases h
      rw [objGet_objSpread_not_mem _ _ _ hnd.1, objGet_objSet]
      simp
    · exact ih _ hnd.2 h

/-- Spread lookup law: a key set by `b` wins, otherwise the value from `a`
survives (call-scoped keys take precedence on collision). -/
theorem objGet_objSpread (a b : Obj) (k : String)
    (hnd : (b.map (fun kv => kv.1)).Nodup) :
    objGet (objSpread a b) k =
      match objGet b k with
      | some v => some v
      | none => objGet a k := by
  cases hb : objGet b k with
  | none =>
    rw [objGet_objSpread_not_mem a b k ((objGet_eq_none_iff b k).mp hb)]
  | some v =>
    rw [objGet_objSpread_mem a b k v hnd (objGet_eq_some_mem b k v hb)]

/- ScriptLoader (src/utils/scriptLoader.ts).  The process-wide cache of
dynamically loaded scripts: `loadedScripts` is the Set of fully loaded
sources, `loadingPromises` the Map from source to its cached promise.
Promises are identified by allocation-ordered natural numbers; the sets of
resolved and rejected promise identifiers record settlement.  `domScripts`
models the script elements present in the document, `pendingHandlers` the
onload or onerror handler attached to an appended element (it fires once),
and `appends` the log of appendChild side effects (the underlying fetches).
`browserEnv` is false when `typeof window === 'undefined'`. -/

structure LoaderState where
  browserEnv : Bool
  loadedScripts : List String
  loadingPromises : List (String × Nat)
  domScripts : List String
  pendingHandlers : List (String × Nat)
  resolvedPromises : List Nat
  rejectedPromises : List Nat
  appends : List String
  nextId : Nat
deriving Repr, DecidableEq

/-- The fresh cache: nothing loaded, nothing loading, empty document. -/
def initLoader (b : Bool) : LoaderState :=
  { browserEnv := b, loadedScripts := [], loadingPromises := [], domScripts := [],
    pendingHandlers := [], resolvedPromises := [], rejectedPromises := [],
    appends := [], nextId := 0 }

/-- The cached loading promise for a source, when one exists
(ScriptLoader.getLoadingPromise). -/
def lookupPromise (s : LoaderState) (src : String) : Option Nat :=
  (s.loadingPromises.find? (fun kv => kv.1 = src)).map (fun kv => kv.2)

/-- ScriptLoader.isScriptLoaded. -/
def isLoaded (s : LoaderState) (src : String) : Prop :=
  src ∈ s.loadedScripts

instance (s : LoaderState) (src : String) : Decidable (isLoaded s src) :=
  inferInstanceAs (Decidable (src ∈ s.loadedScripts))

/-- ScriptLoader.loadScript, returning the new state and the promise handed
back to the caller.  Branches in source order: cached loading promise; already
loaded (a fresh already-resolved promise); then the promise executor: reject
outside the browser, adopt an existing DOM script, or create and append a new
script element.  The executor runs synchronously and the produced promise is
then registered in `loadingPromises`. -/
def loadScript (s : LoaderState) (src : String) : LoaderState × Nat :=
  match lookupPromise s src with
  | some p => (s, p)
  | none =>
    if src ∈ s.loadedScripts then
      ({ s with nextId := s.nextId + 1,
                resolvedPromises := s.nextId :: s.resolvedPromises }, s.nextId)
    else if s.browserEnv = false then
      ({ s with nextId := s.nextId + 1,
                rejectedPromises := s.nextId :: s.rejectedPromises,
                loadingPromises := s.loadingPromises ++ [(src, s.nextId)] }, s.nextId)
    else if src ∈ s.domScripts then
      ({ s with nextId := s.nextId + 1,
                loadedScripts := src :: s.loadedScripts,
                resolvedPromises := s.nextId :: s.resolvedPromises,
                loadingPromises := s.loadingPromises ++ [(src, s.nextId)] }, s.nextId)
    else
      ({ s with nextId := s.nextId + 1,
                domScripts := src :: s.domScripts,
                appends := s.appends ++ [src],
                pendingHandlers := (src, s.nextId) :: s.pendingHandlers,
                loadingPromises := s.loadingPromises ++ [(src, s.nextId)] }, s.nextId)

/-- The browser fires the load event of the appended script element: the
handler marks the source loaded and resolves the promise it closed over.
Each element's handler fires at most once. -/
def scriptOnload (s : LoaderState) (src : String) : LoaderState :=
  match s.pendingHandlers.find? (fun kv => kv.1 = src) with
  | some kv =>
    { s with loadedScripts := src :: s.loadedScripts,
             resolvedPromises := kv.2 :: s.resolvedPromises,
             pendingHandlers := s.pendingHandlers.filter (fun kv2 => kv2.1 ≠ src) }
  | none => s

/-- The browser fires the error event of the appended script element: the
handler rejects the promise it closed over. -/
def scriptOnerror (s : LoaderState) (src : String) : LoaderState :=
  match s.pendingHandlers.find? (fun kv => kv.1 = src) with
  | some kv =>
    { s with rejectedPromises := kv.2 :: s.rejectedPromises,
             pendingHandlers := s.pendingHandlers.filter (fun kv2 => kv2.1 ≠ src) }
  | none => s

/-- ScriptLoader.clearCache: both caches are emptied; the document keeps its
script elements. -/
def clearCache (s : LoaderState) : LoaderState :=
  { s with loadedScripts := [], loadingPromises := [] }

/-- One step of the cache's single-threaded history: a loadScript call or a
browser event. -/
inductive LoaderOp where
  | load (src : String)
  | onload (src : String)
  | onerror (src : String)
  | clear
deriving Repr, DecidableEq

def loaderStep (s : LoaderState) : LoaderOp → LoaderState
  | LoaderOp.load src => (loadScript s src).1
  | LoaderOp.onload src => scriptOnload s src
  | LoaderOp.onerror src => scriptOnerror s src
  | LoaderOp.clear => clearCache s

def loaderRun (s : LoaderState) : List LoaderOp → LoaderState
  | [] => s
  | op :: ops => loaderRun (loaderStep s op) ops

theorem lookupPromise_none (s : LoaderState) (src : String)
    (h : lookupPromise s src = none) : ∀ kv ∈ s.loadingPromises, kv.1 ≠ src := by
  intro kv hkv
  unfold lookupPromise at h
  cases hf : s.loadingPromises.find? (fun kv => kv.1 = src) with
  | some kw => rw [hf] at h; simp at h
  | none =>
    have hx := List.find?_eq_none.mp hf kv hkv
    simpa using hx

theorem lookupPromise_some (s : LoaderState) (src : String) (p : Nat)
    (h : lookupPromise s src = some p) :
    ∃ kv, kv ∈ s.loadingPromises ∧ kv.1 = src ∧ kv.2 = p := by
  unfold lookupPromise at h
  cases hf : s.loadingPromises.find? (fun kv => kv.1 = src) with
  | none => rw [hf] at h; simp at h
  | some kw =>
    rw [hf] at h
    simp at h
    refine ⟨kw, List.mem_of_find?_eq_some hf, ?_, h⟩
    have hx := List.find?_some hf
    simpa using hx

/-- The state invariant of the script cache.  It ties the append log to the
document, the cached promises to their settlement status, and the onload and
onerror handlers to the promise each one settles. -/
structure LoaderInv (s : LoaderState) : Prop where
  appendsDom : ∀ src ∈ s.appends, src ∈ s.domScripts
  appendsOnce : ∀ src, s.appends.count src ≤ 1
  handlersDom : ∀ kv ∈ s.pendingHandlers, kv.1 ∈ s.domScripts
  handlersUnique : ∀ kv ∈ s.pendingHandlers, ∀ kw ∈ s.pendingHandlers,
    kv.1 = kw.1 → kv.2 = kw.2
  promiseStatus : ∀ kv ∈ s.loadingPromises,
    kv.2 ∈ s.resolvedPromises ∨ kv.2 ∈ s.rejectedPromises ∨ kv ∈ s.pendingHandlers
  loadedResolved : ∀ kv ∈ s.loadingPromises, kv.1 ∈ s.loadedScripts →
    kv.2 ∈ s.resolvedPromises
  ssrNoHandlers : s.browserEnv = false → s.pendingHandlers = []
  rejectedNoHandler : ∀ kv ∈ s.loadingPromises, kv.2 ∈ s.rejectedPromises →
    ∀ kw ∈ s.pendingHandlers, kw.1 ≠ kv.1
  handlerKeyAgree : ∀ kv ∈ s.loadingPromises, ∀ kw ∈ s.pendingHandlers,
    kv.2 = kw.2 → kv.1 = kw.1
  freshRes : ∀ p ∈ s.resolvedPromises, p < s.nextId
  freshRej : ∀ p ∈ s.rejectedPromises, p < s.nextId
  freshMap : ∀ kv ∈ s.loadingPromises, kv.2 < s.nextId
  freshHandlers : ∀ kv ∈ s.pendingHandlers, kv.2 < s.nextId

theorem initLoader_inv (b : Bool) : LoaderInv (initLoader b) := by
  constructor <;> simp [initLoader]

theorem loadScript_inv (s : LoaderState) (src : String) (h : LoaderInv s) :
    LoaderInv (loadScript s src).1 := by
  unfold loadScript
  cases hl : lookupPromise s src with
  | some p => exact h
  | none =>
    have hnone := lookupPromise_none s src hl
    by_cases h1 : src ∈ s.loadedScripts
    · rw [if_pos h1]
      refine ⟨h.appendsDom, h.appendsOnce, h.handlersDom, h.handlersUnique, ?_, ?_,
        h.ssrNoHandlers, h.rejectedNoHandler, h.handlerKeyAgree, ?_, ?_, ?_, ?_⟩
      · intro kv hkv
        rcases h.promiseStatus kv hkv with hr | hj | hh
        · exact Or.inl (List.mem_cons_of_mem _ hr)
        · exact Or.inr (Or.inl hj)
        · exact Or.inr (Or.inr hh)
      · intro kv hkv hld
        exact List.mem_cons_of_mem _ (h.loadedResolved kv hkv hld)
      · intro p hp
        rcases List.mem_cons.mp hp with he | hm
        · subst he; exact Nat.lt_succ_self _
        · exact Nat.lt_succ_of_lt (h.freshRes p hm)
      · intro p hp; exact Nat.lt_succ_of_lt (h.freshRej p hp)
      · intro kv hkv; exact Nat.lt_succ_of_lt (h.freshMap kv hkv)
      · intro kv hkv; exact Nat.lt_succ_of_lt (h.freshHandlers kv hkv)
    · rw [if_neg h1]
      by_cases hb : s.browserEnv = false
      · rw [if_pos hb]
        refine ⟨h.appendsDom, h.appendsOnce, h.handlersDom, h.handlersUnique,
          ?_, ?_, h.ssrNoHandlers, ?_, ?_, ?_, ?_, ?_, ?_⟩
        · intro kv hkv
          rcases List.mem_append.mp hkv with hm | hnew
          · rcases h.promiseStatus kv hm with hr | hj | hh
            · exact Or.inl hr
            · exact Or.inr (Or.inl (List.mem_cons_of_mem _ hj))
            · exact Or.inr (Or.inr hh)
          · rcases List.mem_singleton.mp hnew with he
            rw [he]
            exact Or.inr (Or.inl (List.mem_cons_self _ _))
        · intro kv hkv hld
          rcases List.mem_append.mp hkv with hm | hnew
          · exact h.loadedResolved kv hm hld
          · rw [List.mem_singleton.mp hnew] at hld
            exact absurd hld h1
        · intro kv hkv hrej kw hkw
          rw [h.ssrNoHandlers hb] at hkw
          cases hkw
        · intro kv hkv kw hkw
          rw [h.ssrNoHandlers hb] at hkw
          cases hkw
        · intro p hp; exact Nat.lt_succ_of_lt (h.freshRes p hp)
        · intro p hp
          rcases List.mem_cons.mp hp with he | hm
          · subst he; exact Nat.lt_succ_self _
          · exact Nat.lt_succ_of_lt (h.freshRej p hm)
        · intro kv hkv
          rcases List.mem_append.mp hkv with hm | hnew
          · exact Nat.lt_succ_of_lt (h.freshMap kv hm)
          · rw [List.mem_singleton.mp hnew]; exact Nat.lt_succ_self _
        · intro kv hkv; exact Nat.lt_succ_of_lt (h.freshHandlers kv hkv)
      · rw [if_neg hb]
        by_cases h2 : src ∈ s.domScripts
        · rw [if_pos h2]
          refine ⟨h.appendsDom, h.appendsOnce, h.handlersDom, h.handlersUnique,
            ?_, ?_, h.ssrNoHandlers, ?_, ?_, ?_, ?_, ?_, ?_⟩
          · intro kv hkv
            rcases List.mem_append.mp hkv with hm | hnew
            · rcases h.promiseStatus kv hm with hr | hj | hh
              · exact Or.inl (List.mem_cons_of_mem _ hr)
              · exact Or.inr (Or.inl hj)
              · exact Or.inr (Or.inr hh)
            · rw [List.mem_singleton.mp hnew]
              exact Or.inl (List.mem_cons_self _ _)
          · intro kv hkv hld
            rcases List.mem_append.mp hkv with hm | hnew
            · rcases List.mem_cons.mp hld with hsrc | hold
              · exact absurd hsrc (hnone kv hm)
              · exact List.mem_cons_of_mem _ (h.loadedResolved kv hm hold)
            · rw [List.mem_singleton.mp hnew]
              exact List.mem_cons_self _ _
          · intro kv hkv hrej kw hkw
            rcases List.mem_append.mp hkv with hm | hnew
            · exact h.rejectedNoHandler kv hm hrej kw hkw
            · rw [List.mem_singleton.mp hnew] at hrej
              exact absurd (h.freshRej _ hrej) (Nat.lt_irrefl _)
          · intro kv hkv kw hkw heq
            rcases List.mem_append.mp hkv with hm | hnew
            · exact h.handlerKeyAgree kv hm kw hkw heq
            · rw [List.mem_singleton.mp hnew] at heq
              exact absurd (heq ▸ h.freshHandlers kw hkw) (Nat.lt_irrefl _)
          · intro p hp
            rcases List.mem_cons.mp hp with he | hm
            · subst he; exact Nat.lt_succ_self _
            · exact Nat.lt_succ_of_lt (h.freshRes p hm)
          · intro p hp; exact Nat.lt_succ_of_lt (h.freshRej p hp)
          · intro kv hkv
            rcases List.mem_append.mp hkv with hm | hnew
            · exact Nat.lt_succ_of_lt (h.freshMap kv hm)
            · rw [List.mem_singleton.mp hnew]; exact Nat.lt_succ_self _
          · intro kv hkv; exact Nat.lt_succ_of_lt (h.freshHandlers kv hkv)
        · rw [if_neg h2]
          refine ⟨?_, ?_, ?_, ?_, ?_, ?_, ?_, ?_, ?_, ?_, ?_, ?_, ?_⟩
          · intro a ha
            rcases List.mem_append.mp ha with hm | hnew
            · exact List.mem_cons_of_mem _ (h.appendsDom a hm)
            · rw [List.mem_singleton.mp hnew]
              exact List.mem_cons_self _ _
          · intro q
            rw [List.count_append]
            by_cases hq : q = src
            · subst hq
              have hz : s.appends.count q = 0 :=
                List.count_eq_zero.mpr (fun hmem => h2 (h.appendsDom q hmem))
              simp [hz, List.count_cons]
            · have hz : List.count q [src] = 0 := by
                apply List.count_eq_zero.mpr
                simp [hq]
              rw [hz]
              simpa using h.appendsOnce q
          · intro kv hkv
            rcases List.mem_cons.mp hkv with he | hm
            · rw [he]; exact List.mem_cons_self _ _
            · exact List.mem_cons_of_mem _ (h.handlersDom kv hm)
          · intro kv hkv kw hkw heq
            rcases List.mem_cons.mp hkv with he | hm
            · rcases List.mem_cons.mp hkw with he2 | hm2
              · rw [he, he2]
              · rw [he] at heq
                have hs : src = kw.1 := heq
                exact absurd (by rw [hs]; exact h.handlersDom kw hm2) h2
            · rcases List.mem_cons.mp hkw with he2 | hm2
              · rw [he2] at heq
                have hs : kv.1 = src := heq
                exact absurd (hs ▸ h.handlersDom kv hm) h2
              · exact h.handlersUnique kv hm kw hm2 heq
          · intro kv hkv
            rcases List.mem_append.mp hkv with hm | hnew
            · rcases h.promiseStatus kv hm with hr | hj | hh
              · exact Or.inl hr
              · exact Or.inr (Or.inl hj)
              · exact Or.inr (Or.inr (List.mem_cons_of_mem _ hh))
            · rw [List.mem_singleton.mp hnew]
              exact Or.inr (Or.inr (List.mem_cons_self _ _))
          · intro kv hkv hld
            rcases List.mem_append.mp hkv with hm | hnew
            · exact h.loadedResolved kv hm hld
            · rw [List.mem_singleton.mp hnew] at hld
              exact absurd hld h1
          · intro hfalse
            exact absurd hfalse hb
          · intro kv hkv hrej kw hkw
            rcases List.mem_append.mp hkv with hm | hnew
            · rcases List.mem_cons.mp hkw with he2 | hm2
              · rw [he2]
                intro hc
                exact hnone kv hm hc.symm
              · exact h.rejectedNoHandler kv hm hrej kw hm2
            · rw [List.mem_singleton.mp hnew] at hrej
              exact absurd (h.freshRej _ hrej) (Nat.lt_irrefl _)
          · intro kv hkv kw hkw heq
            rcases List.mem_append.mp hkv with hm | hnew
            · rcases List.mem_cons.mp hkw with he2 | hm2
              · rw [he2] at heq
                exact absurd (heq ▸ h.freshMap kv hm) (Nat.lt_irrefl _)
              · exact h.handlerKeyAgree kv hm kw hm2 heq
            · rcases List.mem_cons.mp hkw with he2 | hm2
              · rw [List.mem_singleton.mp hnew, he2]
              · rw [List.mem_singleton.mp hnew] at heq
                exact absurd (heq ▸ h.freshHandlers kw hm2) (Nat.lt_irrefl _)
          · intro p hp; exact Nat.lt_succ_of_lt (h.freshRes p hp)
          · intro p hp; exact Nat.lt_succ_of_lt (h.freshRej p hp)
          · intro kv hkv
            rcases List.mem_append.mp hkv with hm | hnew
            · exact Nat.lt_succ_of_lt (h.freshMap kv hm)
            · rw [List.mem_singleton.mp hnew]; exact Nat.lt_succ_self _
          · intro kv hkv
            rcases List.mem_cons.mp hkv with he | hm
            · rw [he]; exact Nat.lt_succ_self _
            · exact Nat.lt_succ_of_lt (h.freshHandlers kv hm)

theorem scriptOnload_inv (s : LoaderState) (src : String) (h : LoaderInv s) :
    LoaderInv (scriptOnload s src) := by
  unfold scriptOnload
  cases hf : s.pendingHandlers.find? (fun kv => kv.1 = src) with
  | none => exact h
  | some kv0 =>
    have hkv0 : kv0 ∈ s.pendingHandlers := List.mem_of_find?_eq_some hf
    have hkey : kv0.1 = src := by
      have hx := List.find?_some hf
      simpa using hx
    refine ⟨h.appendsDom, h.appendsOnce, ?_, ?_, ?_, ?_, ?_, ?_, ?_, ?_,
      h.freshRej, h.freshMap, ?_⟩
    · intro kv hkv
      exact h.handlersDom kv (List.mem_of_mem_filter hkv)
    · intro kv hkv kw hkw heq
      exact h.handlersUnique kv (List.mem_of_mem_filter hkv) kw
        (List.mem_of_mem_filter hkw) heq
    · intro kv hkv
      rcases h.promiseStatus kv hkv with hr | hj | hh
      · exact Or.inl (List.mem_cons_of_mem _ hr)
      · exact Or.inr (Or.inl hj)
      · by_cases hks : kv.1 = src
        · have he : kv.2 = kv0.2 :=
            h.handlersUnique kv hh kv0 hkv0 (hks.trans hkey.symm)
          rw [he]
          exact Or.inl (List.mem_cons_self _ _)
        · refine Or.inr (Or.inr (List.mem_filter.mpr ⟨hh, ?_⟩))
          simpa using hks
    · intro kv hkv hld
      rcases List.mem_cons.mp hld with hsrc | hold
      · rcases h.promiseStatus kv hkv with hr | hj | hh
        · exact List.mem_cons_of_mem _ hr
        · exact absurd (hkey.trans hsrc.symm)
            (h.rejectedNoHandler kv hkv hj kv0 hkv0)
        · have he : kv.2 = kv0.2 :=
            h.handlersUnique kv hh kv0 hkv0 (hsrc.trans hkey.symm)
          rw [he]
          exact List.mem_cons_self _ _
      · exact List.mem_cons_of_mem _ (h.loadedResolved kv hkv hold)
    · intro hbf
      rw [h.ssrNoHandlers hbf] at hf
      simp at hf
    · intro kv hkv hrej kw hkw
      exact h.rejectedNoHandler kv hkv hrej kw (List.mem_of_mem_filter hkw)
    · intro kv hkv kw hkw heq
      exact h.handlerKeyAgree kv hkv kw (List.mem_of_mem_filter hkw) heq
    · intro p hp
      rcases List.mem_cons.mp hp with he | hm
      · rw [he]; exact h.freshHandlers kv0 hkv0
      · exact h.freshRes p hm
    · intro kv hkv
      exact h.freshHandlers kv (List.mem_of_mem_filter hkv)

theorem scriptOnerror_inv (s : LoaderState) (src : String) (h : LoaderInv s) :
    LoaderInv (scriptOnerror s src) := by
  unfold scriptOnerror
  cases hf : s.pendingHandlers.find? (fun kv => kv.1 = src) with
  | none => exact h
  | some kv0 =>
    have hkv0 : kv0 ∈ s.pendingHandlers := List.mem_of_find?_eq_some hf
    have hkey : kv0.1 = src := by
      have hx := List.find?_some hf
      simpa using hx
    refine ⟨h.appendsDom, h.appendsOnce, ?_, ?_, ?_, ?_, ?_, ?_, ?_,
      h.freshRes, ?_, h.freshMap, ?_⟩
    · intro kv hkv
      exact h.handlersDom kv (List.mem_of_mem_filter hkv)
    · intro kv hkv kw hkw heq
      exact h.handlersUnique kv (List.mem_of_mem_filter hkv) kw
        (List.mem_of_mem_filter hkw) heq
    · intro kv hkv
      rcases h.promiseStatus kv hkv with hr | hj | hh
      · exact Or.inl hr
      · exact Or.inr (Or.inl (List.mem_cons_of_mem _ hj))
      · by_cases hks : kv.1 = src
        · have he : kv.2 = kv0.2 :=
            h.handlersUnique kv hh kv0 hkv0 (hks.trans hkey.symm)
          rw [he]
          exact Or.inr (Or.inl (List.mem_cons_self _ _))
        · refine Or.inr (Or.inr (List.mem_filter.mpr ⟨hh, ?_⟩))
          simpa using hks
    · intro kv hkv hld
      exact h.loadedResolved kv hkv hld
    · intro hbf
      rw [h.ssrNoHandlers hbf] at hf
      simp at hf
    · intro kv hkv hrej kw hkw
      have hkw' : kw ∈ s.pendingHandlers := List.mem_of_mem_filter hkw
      have hkwne : kw.1 ≠ src := by
        have hx := (List.mem_filter.mp hkw).2
        simpa using hx
      rcases List.mem_cons.mp hrej with he | hm
      · have hagree : kv.1 = kv0.1 := h.handlerKeyAgree kv hkv kv0 hkv0 he
        rw [hagree, hkey]
        exact hkwne
      · exact h.rejectedNoHandler kv hkv hm kw hkw'
    · intro kv hkv kw hkw heq
      exact h.handlerKeyAgree kv hkv kw (List.mem_of_mem_filter hkw) heq
    · intro p hp
      rcases List.mem_cons.mp hp with he | hm
      · rw [he]; exact h.freshHandlers kv0 hkv0
      · exact h.freshRej p hm
    · intro kv hkv
      exact h.freshHandlers kv (List.mem_of_mem_filter hkv)

theorem clearCache_inv (s : LoaderState) (h : LoaderInv s) :
    LoaderInv (clearCache s) := by
  refine ⟨h.appendsDom, h.appendsOnce, h.handlersDom, h.handlersUnique,
    ?_, ?_, h.ssrNoHandlers, ?_, ?_, h.freshRes, h.freshRej, ?_, h.freshHandlers⟩
  · intro kv hkv; cases hkv
  · intro kv hkv; cases hkv
  · intro kv hkv; cases hkv
  · intro kv hkv; cases hkv
  · intro kv hkv; cases hkv

theorem loaderStep_inv (s : LoaderState) (op : LoaderOp) (h : LoaderInv s) :
    LoaderInv (loaderStep s op) := by
  cases op with
  | load src => exact loadScript_inv s src h
  | onload src => exact scriptOnload_inv s src h
  | onerror src => exact scriptOnerror_inv s src h
  | clear => exact clearCache_inv s h

theorem loaderRun_inv (s : LoaderState) (ops : List LoaderOp) (h : LoaderInv s) :
    LoaderInv (loaderRun s ops) := by
  induction ops generalizing s with
  | nil => exact h
  | cons op ops ih => exact ih _ (loaderStep_inv s op h)

theorem loaderRun_replicate_cached (s : LoaderState) (src : String) (p : Nat)
    (m : Nat) (h : lookupPromise s src = some p) :
    loaderRun s (List.replicate m (LoaderOp.load src)) = s := by
  induction m with
  | zero => rfl
  | succ m ih =>
    rw [List.replicate_succ]
    show loaderRun (loaderStep s (LoaderOp.load src)) _ = s
    have hstep : loaderStep s (LoaderOp.load src) = s := by
      show (loadScript s src).1 = s
      unfold loadScript
      rw [h]
    rw [hstep]
    exact ih

theorem loadScript_init_fst (src : String) :
    (loadScript (initLoader true) src).1 =
      { browserEnv := true, loadedScripts := [], loadingPromises := [(src, 0)],
        domScripts := [src], pendingHandlers := [(src, 0)],
        resolvedPromises := [], rejectedPromises := [], appends := [src],
        nextId := 1 } := by
  unfold loadScript lookupPromise initLoader
  simp

/-- C1: for every script source, acquire (loadScript) calls issued while the
source is still loading all receive the cached promise with no new side
effect; at most one script element is ever appended per source over any
history of the cache (and exactly one for any positive number of back-to-back
loadScript calls from a fresh cache); and once the source is loaded, a further
loadScript call appends nothing and hands back an already-resolved promise. -/
theorem C1_scriptLoader_dedup (b : Bool) (ops : List LoaderOp) (src : String)
    (n : Nat) :
    (loaderRun (initLoader b) ops).appends.count src ≤ 1
    ∧ (∀ p, lookupPromise (loaderRun (initLoader b) ops) src = some p →
        loadScript (loaderRun (initLoader b) ops) src
          = (loaderRun (initLoader b) ops, p))
    ∧ (isLoaded (loaderRun (initLoader b) ops) src →
        (loadScript (loaderRun (initLoader b) ops) src).1.appends
            = (loaderRun (initLoader b) ops).appends
        ∧ (loadScript (loaderRun (initLoader b) ops) src).2
            ∈ (loadScript (loaderRun (initLoader b) ops) src).1.resolvedPromises)
    ∧ (1 ≤ n →
        (loaderRun (initLoader true)
            (List.replicate n (LoaderOp.load src))).appends.count src = 1) := by
  have hinv := loaderRun_inv (initLoader b) ops (initLoader_inv b)
  refine ⟨hinv.appendsOnce src, ?_, ?_, ?_⟩
  · intro p hp
    unfold loadScript
    rw [hp]
  · intro hld
    cases hp : lookupPromise (loaderRun (initLoader b) ops) src with
    | some p =>
      have heq : loadScript (loaderRun (initLoader b) ops) src
          = (loaderRun (initLoader b) ops, p) := by
        unfold loadScript
        rw [hp]
      rw [heq]
      refine ⟨rfl, ?_⟩
      obtain ⟨kv, hkv, hk1, hk2⟩ :=
        lookupPromise_some (loaderRun (initLoader b) ops) src p hp
      have hres := hinv.loadedResolved kv hkv (by rw [hk1]; exact hld)
      rw [hk2] at hres
      exact hres
    | none =>
      have hld' : src ∈ (loaderRun (initLoader b) ops).loadedScripts := hld
      unfold loadScript
      rw [hp, if_pos hld']
      exact ⟨rfl, List.mem_cons_self _ _⟩
  · intro hn
    obtain ⟨m, hm⟩ := Nat.exists_eq_add_of_le hn
    subst hm
    rw [Nat.add_comm 1 m, List.replicate_succ]
    show (loaderRun (loaderStep (initLoader true) (LoaderOp.load src))
        (List.replicate m (LoaderOp.load src))).appends.count src = 1
    have hstep : loaderStep (initLoader true) (LoaderOp.load src)
        = { browserEnv := true, loadedScripts := [], loadingPromises := [(src, 0)],
            domScripts := [src], pendingHandlers := [(src, 0)],
            resolvedPromises := [], rejectedPromises := [], appends := [src],
            nextId := 1 } := loadScript_init_fst src
    rw [hstep]
    rw [loaderRun_replicate_cached _ src 0 m (by simp [lookupPromise])]
    simp

/-- Concrete instantiation of the C1 theorem: a second and third loadScript
call for a source return the cached promise unchanged, a load after the
onload event appends nothing and is resolved, and two back-to-back loads
from a fresh cache append exactly one script element. -/
theorem C1_scriptLoader_dedup_witness :
    loadScript (loaderRun (initLoader true) [LoaderOp.load "s"]) "s"
        = (loaderRun (initLoader true) [LoaderOp.load "s"], 0)
    ∧ ((loadScript (loaderRun (initLoader true)
            [LoaderOp.load "s", LoaderOp.onload "s"]) "s").1.appends
          = (loaderRun (initLoader true)
            [LoaderOp.load "s", LoaderOp.onload "s"]).appends
        ∧ (loadScript (loaderRun (initLoader true)
            [LoaderOp.load "s", LoaderOp.onload "s"]) "s").2
          ∈ (loadScript (loaderRun (initLoader true)
            [LoaderOp.load "s", LoaderOp.onload "s"]) "s").1.resolvedPromises)
    ∧ (loaderRun (initLoader true)
        (List.replicate 2 (LoaderOp.load "s"))).appends.count "s" = 1 :=
  ⟨(C1_scriptLoader_dedup true [LoaderOp.load "s"] "s" 2).2.1 0 (by decide),
   (C1_scriptLoader_dedup true [LoaderOp.load "s", LoaderOp.onload "s"] "s" 2).2.2.1
     (by decide),
   (C1_scriptLoader_dedup true [] "s" 2).2.2.2 (by decide)⟩

/- Destination adapters: types.ts, BaseProvider, and the concrete
MixpanelProvider, GA4Provider, LogRocketProvider and AmplitudeProvider. -/

inductive ProviderName where
  | mixpanel | ga4 | logrocket | amplitude
deriving Repr, DecidableEq

/-- TrackingEvent payload (AnalyticsEvent in types.ts). -/
structure AnalyticsEvent where
  name : String
  properties : Option Obj
  userId : Option String
  timestamp : Option Nat
deriving Repr, DecidableEq

/-- UserIdentity payload (AnalyticsUser in types.ts). -/
structure AnalyticsUser where
  id : String
  properties : Option Obj
deriving Repr, DecidableEq

/-- PageView payload (AnalyticsPageView in types.ts); `title` is optional and
kept as a JsVal so an absent title stays `undefined` inside object literals. -/
structure AnalyticsPageView where
  url : String
  title : JsVal
  properties : Option Obj
deriving Repr, DecidableEq

/-- Presence of each vendor global on `window`. -/
structure Window where
  mixpanel : Bool
  gtag : Bool
  logRocket : Bool
  amplitude : Bool
deriving Repr, DecidableEq

/-- Calls made into the vendor backends. -/
inductive BackendCall where
  | mpTrack (name : String) (props : Option Obj)
  | mpIdentify (uid : String)
  | mpPeopleSet (props : Obj)
  | mpOptIn
  | mpOptOut
  | ga4Event (name : String) (params : Obj)
  | ga4Config (measurementId : String) (params : Obj)
  | ga4SetUserProps (props : Obj)
  | lrTrack (name : String) (props : Option Obj)
  | lrIdentify (uid : String) (props : Option Obj)
  | ampLogEvent (name : String) (props : Option Obj)
  | ampSetUserId (uid : String)
  | ampSetUserProps (props : Obj)
deriving Repr, DecidableEq

/-- The state a BaseProvider instance carries: its concrete kind, display
name, the `enabled` flag (false at construction; the readiness poll turns it
on), the local global-properties bag, and the credential the concrete
subclass stores (token, measurementId, appId or apiKey).  The debug flags
only feed logging and are not carried. -/
structure Provider where
  kind : ProviderName
  name : String
  enabled : Bool
  globalProperties : Obj
  credential : String
deriving Repr, DecidableEq

/-- BaseProvider.isEnabled. -/
def Provider.isEnabled (p : Provider) : Bool := p.enabled

/-- BaseProvider.setGlobalProperties: merge into the local bag
unconditionally. -/
def Provider.setGlobalProperties (p : Provider) (props : Obj) : Provider :=
  { p with globalProperties := objSpread p.globalProperties props }

/-- BaseProvider.enable sets the flag; MixpanelProvider.enable additionally
calls mixpanel.opt_in_tracking() when the global is present. -/
def Provider.enable (w : Window) (p : Provider) : Provider × List BackendCall :=
  match p.kind with
  | ProviderName.mixpanel =>
    ({ p with enabled := true }, if w.mixpanel then [BackendCall.mpOptIn] else [])
  | _ => ({ p with enabled := true }, [])

/-- BaseProvider.disable clears the flag; MixpanelProvider.disable additionally
calls mixpanel.opt_out_tracking() when the global is present. -/
def Provider.disable (w : Window) (p : Provider) : Provider × List BackendCall :=
  match p.kind with
  | ProviderName.mixpanel =>
    ({ p with enabled := false }, if w.mixpanel then [BackendCall.mpOptOut] else [])
  | _ => ({ p with enabled := false }, [])

/-- MixpanelProvider's fixed table of canonical property names mapped to
Mixpanel's reserved profile-property names. -/
def mixpanelPropertyMap : List (String × String) :=
  [("email", "$email"), ("name", "$name"), ("firstName", "$first_name"),
   ("first_name", "$first_name"), ("lastName", "$last_name"),
   ("last_name", "$last_name"), ("phone", "$phone"), ("avatar", "$avatar"),
   ("created", "$created"), ("city", "$city"), ("region", "$region"),
   ("country", "$country"), ("timezone", "$timezone")]

/-- The mapped name of one key: propertyMap[key] || key. -/
def mapMixpanelKey (k : String) : String :=
  match mixpanelPropertyMap.find? (fun kv => kv.1 = k) with
  | some kv => kv.2
  | none => k

/-- MixpanelProvider.mapToMixpanelProperties: rebuild the bag, assigning each
value under its mapped key in iteration order. -/
def mapToMixpanelProperties (props : Obj) : Obj :=
  props.foldl (fun o kv => objSet o (mapMixpanelKey kv.1) kv.2) []

/-- The object literal used when a page view is tracked as a custom event:
url and title followed by the spread of the call-scoped properties. -/
def pageViewLiteral (pv : AnalyticsPageView) : Obj :=
  objSpread [("url", some pv.url), ("title", pv.title)]
    (match pv.properties with | some ps => ps | none => [])

/-- The four concrete trackEventInternal bodies.  Every body checks its vendor
global and wraps the call in try/catch (errors are swallowed after logging),
so the internal call never throws. -/
def Provider.trackEventInternal (w : Window) (p : Provider)
    (e : AnalyticsEvent) : List BackendCall :=
  match p.kind with
  | ProviderName.mixpanel =>
    if w.mixpanel then [BackendCall.mpTrack e.name e.properties] else []
  | ProviderName.ga4 =>
    if w.gtag then
      [BackendCall.ga4Event e.name
        (objSpread [("event_category", some "custom"), ("event_label", some e.name)]
          (match e.properties with | some ps => ps | none => []))]
    else []
  | ProviderName.logrocket =>
    if w.logRocket then [BackendCall.lrTrack e.name e.properties] else []
  | ProviderName.amplitude =>
    if w.amplitude then [BackendCall.ampLogEvent e.name e.properties] else []

/-- The four concrete identifyUserInternal bodies.  Only Mixpanel remaps the
user property names; the others forward them as given. -/
def Provider.identifyUserInternal (w : Window) (p : Provider)
    (u : AnalyticsUser) : List BackendCall :=
  match p.kind with
  | ProviderName.mixpanel =>
    if w.mixpanel then
      BackendCall.mpIdentify u.id ::
        (match u.properties with
         | some ps => [BackendCall.mpPeopleSet (mapToMixpanelProperties ps)]
         | none => [])
    else []
  | ProviderName.ga4 =>
    if w.gtag then
      BackendCall.ga4Config p.credential [("user_id", some u.id)] ::
        (match u.properties with
         | some ps => [BackendCall.ga4SetUserProps ps]
         | none => [])
    else []
  | ProviderName.logrocket =>
    if w.logRocket then [BackendCall.lrIdentify u.id u.properties] else []
  | ProviderName.amplitude =>
    if w.amplitude then
      BackendCall.ampSetUserId u.id ::
        (match u.properties with
         | some ps => [BackendCall.ampSetUserProps ps]
         | none => [])
    else []

/-- The four concrete trackPageViewInternal bodies.  LogRocket only tracks a
page view when call-scoped properties are present. -/
def Provider.trackPageViewInternal (w : Window) (p : Provider)
    (pv : AnalyticsPageView) : List BackendCall :=
  match p.kind with
  | ProviderName.mixpanel =>
    if w.mixpanel then [BackendCall.mpTrack "Page View" (some (pageViewLiteral pv))]
    else []
  | ProviderName.ga4 =>
    if w.gtag then
      [BackendCall.ga4Config p.credential
        (objSpread [("page_title", pv.title), ("page_location", some pv.url)]
          (match pv.properties with | some ps => ps | none => []))]
    else []
  | ProviderName.logrocket =>
    if w.logRocket then
      match pv.properties with
      | some _ => [BackendCall.lrTrack "Page View" (some (pageViewLiteral pv))]
      | none => []
    else []
  | ProviderName.amplitude =>
    if w.amplitude then
      [BackendCall.ampLogEvent "Page View" (some (pageViewLiteral pv))]
    else []

/-- BaseProvider.trackEvent's enriched event: the event spread with its
`properties` overridden by the local global-properties bag spread under the
call-scoped properties. -/
def Provider.enrichEvent (p : Provider) (e : AnalyticsEvent) : AnalyticsEvent :=
  { e with
    properties := some (objSpread p.globalProperties
      (match e.properties with | some ps => ps | none => [])) }

/-- BaseProvider.trackEvent: a no-op (after logging) when disabled, otherwise
the enriched event is handed to the concrete internal. -/
def Provider.trackEvent (w : Window) (p : Provider) (e : AnalyticsEvent) :
    List BackendCall :=
  if p.enabled = false then []
  else p.trackEventInternal w (p.enrichEvent e)

/-- BaseProvider.identifyUser: a no-op (after logging) when disabled,
otherwise the user payload is forwarded unchanged to the concrete internal
(no enrichment step exists for identify). -/
def Provider.identifyUser (w : Window) (p : Provider) (u : AnalyticsUser) :
    List BackendCall :=
  if p.enabled = false then []
  else p.identifyUserInternal w u

/-- BaseProvider.trackPageView's enriched page view. -/
def Provider.enrichPageView (p : Provider) (pv : AnalyticsPageView) :
    AnalyticsPageView :=
  { pv with
    properties := some (objSpread p.globalProperties
      (match pv.properties with | some ps => ps | none => [])) }

/-- BaseProvider.trackPageView: a no-op (after logging) when disabled,
otherwise the enriched page view is handed to the concrete internal. -/
def Provider.trackPageView (w : Window) (p : Provider)
    (pv : AnalyticsPageView) : List BackendCall :=
  if p.enabled = false then []
  else p.trackPageViewInternal w (p.enrichPageView pv)

/-- Construction of a concrete provider: BaseProvider's constructor stores the
display name with enabled = false and an empty bag; the subclass stores its
credential.  The asynchronous work the constructor kicks off (script loading
and the readiness poll) is modelled separately. -/
def mkProvider (k : ProviderName) (cred : String) : Provider :=
  { kind := k,
    name := match k with
            | ProviderName.mixpanel => "Mixpanel"
            | ProviderName.ga4 => "GA4"
            | ProviderName.logrocket => "LogRocket"
            | ProviderName.amplitude => "Amplitude",
    enabled := false, globalProperties := [], credential := cred }

/- The readiness poll shared in shape by initializeAmplitude, initializeGA4
and initializeLogRocket: check(attempts = 0) evaluates the backend-specific
readiness predicate; on success it initializes the backend and calls
this.enable(); otherwise, while attempts < 10, it schedules
check(attempts + 1) after 100 ms; at attempts = 10 it logs the failure and
stops.  The recursion below is driven by the remaining retry budget
r = 10 - attempts, so the source guard `attempts < 10` is exactly `r > 0`. -/

inductive PollEvent where
  | check (i : Nat)
  | sleep (ms : Nat)
  | enableCall
  | failLog
deriving Repr, DecidableEq

/-- One run of the polling loop from attempt index `attempts` with `r`
retries left: the trace of events and whether the backend became ready. -/
def checkLoopAux (ready : Nat → Bool) : Nat → Nat → List PollEvent × Bool
  | attempts, 0 =>
    if ready attempts then ([PollEvent.check attempts, PollEvent.enableCall], true)
    else ([PollEvent.check attempts, PollEvent.failLog], false)
  | attempts, r + 1 =>
    if ready attempts then ([PollEvent.check attempts, PollEvent.enableCall], true)
    else
      let rest := checkLoopAux ready (attempts + 1) r
      (PollEvent.check attempts :: PollEvent.sleep 100 :: rest.1, rest.2)

/-- The poll as started by the providers: attempts = 0 and 10 retries left. -/
def runReadinessPoll (ready : Nat → Bool) : List PollEvent × Bool :=
  checkLoopAux ready 0 10

/-- The number of readiness-predicate evaluations in a poll trace. -/
def pollChecks (tr : List PollEvent) : Nat :=
  (tr.filter (fun ev => match ev with
    | PollEvent.check _ => true
    | _ => false)).length

/-- The effect of the poll on the adapter it belongs to: on success the
success branch calls enable(), setting the flag; otherwise the adapter is
left untouched. -/
def applyPoll (ready : Nat → Bool) (p : Provider) : Provider :=
  if (runReadinessPoll ready).2 then { p with enabled := true } else p

theorem checkLoopAux_checks_le (ready : Nat → Bool) (r attempts : Nat) :
    pollChecks (checkLoopAux ready attempts r).1 ≤ r + 1 := by
  induction r generalizing attempts with
  | zero =>
    by_cases h : ready attempts = true <;> simp [checkLoopAux, h, pollChecks]
  | succ r ih =>
    by_cases h : ready attempts = true
    · simp [checkLoopAux, h, pollChecks]
    · simp only [checkLoopAux, h, if_neg, Bool.false_eq_true, if_false]
      have := ih (attempts + 1)
      simp [pollChecks] at this ⊢
      omega

theorem checkLoopAux_success_iff (ready : Nat → Bool) (r attempts : Nat) :
    (checkLoopAux ready attempts r).2 = true
      ↔ ∃ i, i ≤ r ∧ ready (attempts + i) = true := by
  induction r generalizing attempts with
  | zero =>
    by_cases h : ready attempts = true
    · simp [checkLoopAux, h]
    · simp [checkLoopAux, h]
  | succ r ih =>
    by_cases h : ready attempts = true
    · simp [checkLoopAux, h]
      exact ⟨0, by simpa using h⟩
    · simp only [checkLoopAux, h, Bool.false_eq_true, if_false]
      rw [ih (attempts + 1)]
      constructor
      · rintro ⟨i, hi, hr⟩
        refine ⟨i + 1, by omega, ?_⟩
        have : attempts + 1 + i = attempts + (i + 1) := by omega
        rw [← this]
        exact hr
      · rintro ⟨i, hi, hr⟩
        cases i with
        | zero => simp at hr; exact absurd hr (by simpa using h)
        | succ i =>
          refine ⟨i, by omega, ?_⟩
          have : attempts + (i + 1) = attempts + 1 + i := by omega
          rw [← this]
          exact hr

theorem checkLoopAux_timeout (ready : Nat → Bool) (r attempts : Nat)
    (h : ∀ i, i ≤ r → ready (attempts + i) = false) :
    (checkLoopAux ready attempts r).2 = false
    ∧ pollChecks (checkLoopAux ready attempts r).1 = r + 1
    ∧ PollEvent.failLog ∈ (checkLoopAux ready attempts r).1 := by
  induction r generalizing attempts with
  | zero =>
    have h0 : ready attempts = false := by simpa using h 0 (Nat.le_refl 0)
    simp [checkLoopAux, h0, pollChecks]
  | succ r ih =>
    have h0 : ready attempts = false := by simpa using h 0 (Nat.zero_le _)
    have hrest := ih (attempts + 1) (fun i hi => by
      have := h (i + 1) (by omega)
      have he : attempts + (i + 1) = attempts + 1 + i := by omega
      rw [he] at this
      exact this)
    simp only [checkLoopAux, h0, Bool.false_eq_true, if_false]
    refine ⟨hrest.1, ?_, ?_⟩
    · simp [pollChecks] at hrest ⊢
      omega
    · simp
      exact hrest.2.2

theorem checkLoopAux_sleep_100 (ready : Nat → Bool) (r attempts ms : Nat)
    (h : PollEvent.sleep ms ∈ (checkLoopAux ready attempts r).1) : ms = 100 := by
  induction r generalizing attempts with
  | zero =>
    by_cases hr : ready attempts = true <;> simp [checkLoopAux, hr] at h
  | succ r ih =>
    by_cases hr : ready attempts = true
    · simp [checkLoopAux, hr] at h
    · simp only [checkLoopAux, hr, Bool.false_eq_true, if_false] at h
      simp at h
      rcases h with h | h
      · exact h
      · exact ih (attempts + 1) h

/- AnalyticsProxy (src/AnalyticsProxy.ts): configuration shape, adapter-set
construction, fan-out and lifecycle management. -/

/-- One destination's sub-configuration: the enabled flag and the credential
field (token, measurementId, appId or apiKey).  Sub-fields that only feed
logging or vendor options are not carried. -/
structure ProviderConf where
  enabled : Bool
  credential : Option String
deriving Repr, DecidableEq

/-- The `providers` block of the configuration. -/
structure ProvidersConfig where
  mixpanel : Option ProviderConf
  ga4 : Option ProviderConf
  logrocket : Option ProviderConf
  amplitude : Option ProviderConf
deriving Repr, DecidableEq

structure AnalyticsProxyConfig where
  providers : ProvidersConfig
  globalProperties : Option Obj
  enableDebug : Bool
deriving Repr, DecidableEq

/-- JavaScript truthiness of the credential field: present and non-empty. -/
def credTruthy : Option String → Bool
  | none => false
  | some s => decide (s ≠ "")

/-- The guard `providers.x?.enabled && providers.x.credential` shared by the
four destinations in initializeProviders. -/
def eligEntry (c : Option ProviderConf) : Bool :=
  match c with
  | none => false
  | some c => c.enabled && credTruthy c.credential

/-- The credential handed to the constructed provider. -/
def credOf (c : Option ProviderConf) : String :=
  match c with
  | none => ""
  | some c => match c.credential with | some s => s | none => ""

/-- AnalyticsProxy.initializeProviders: one adapter per eligible destination,
registered in the fixed source order mixpanel, ga4, logrocket, amplitude;
ineligible destinations are skipped silently. -/
def initializeProviders (cfg : AnalyticsProxyConfig) :
    List (ProviderName × Provider) :=
  (if eligEntry cfg.providers.mixpanel then
    [(ProviderName.mixpanel,
      mkProvider ProviderName.mixpanel (credOf cfg.providers.mixpanel))]
   else [])
  ++ (if eligEntry cfg.providers.ga4 then
    [(ProviderName.ga4, mkProvider ProviderName.ga4 (credOf cfg.providers.ga4))]
   else [])
  ++ (if eligEntry cfg.providers.logrocket then
    [(ProviderName.logrocket,
      mkProvider ProviderName.logrocket (credOf cfg.providers.logrocket))]
   else [])
  ++ (if eligEntry cfg.providers.amplitude then
    [(ProviderName.amplitude,
      mkProvider ProviderName.amplitude (credOf cfg.providers.amplitude))]
   else [])

/-- The dispatcher state: the registered adapters in registration order (the
underlying Map has unique keys), the current configuration, and the
dispatcher-level global-properties bag. -/
structure AnalyticsProxy where
  providers : List (ProviderName × Provider)
  config : AnalyticsProxyConfig
  globalProperties : Obj
deriving Repr, DecidableEq

/-- AnalyticsProxy.setGlobalProperties: merge into the dispatcher bag and
forward the same delta to every adapter, enabled or not. -/
def AnalyticsProxy.setGlobalProperties (a : AnalyticsProxy) (props : Obj) :
    AnalyticsProxy :=
  { a with
    globalProperties := objSpread a.globalProperties props,
    providers := a.providers.map (fun np => (np.1, np.2.setGlobalProperties props)) }

/-- The AnalyticsProxy constructor: store the configuration, build the
adapter set, then push the configured global properties (or the empty bag). -/
def mkAnalyticsProxy (cfg : AnalyticsProxyConfig) : AnalyticsProxy :=
  AnalyticsProxy.setGlobalProperties
    { providers := initializeProviders cfg, config := cfg, globalProperties := [] }
    (match cfg.globalProperties with | some g => g | none => [])

/-- AnalyticsProxy.trackEvent: iterate the adapter set in registration order,
invoking each adapter whose isEnabled() is true; emitted backend calls are
tagged with the destination that made them. -/
def AnalyticsProxy.trackEvent (w : Window) (a : AnalyticsProxy)
    (e : AnalyticsEvent) : List (ProviderName × BackendCall) :=
  (a.providers.map (fun np =>
    if np.2.isEnabled then (np.2.trackEvent w e).map (fun c => (np.1, c))
    else [])).flatten

/-- AnalyticsProxy.identifyUser: same fan-out over identifyUser. -/
def AnalyticsProxy.identifyUser (w : Window) (a : AnalyticsProxy)
    (u : AnalyticsUser) : List (ProviderName × BackendCall) :=
  (a.providers.map (fun np =>
    if np.2.isEnabled then (np.2.identifyUser w u).map (fun c => (np.1, c))
    else [])).flatten

/-- AnalyticsProxy.trackPageView: same fan-out over trackPageView. -/
def AnalyticsProxy.trackPageView (w : Window) (a : AnalyticsProxy)
    (pv : AnalyticsPageView) : List (ProviderName × BackendCall) :=
  (a.providers.map (fun np =>
    if np.2.isEnabled then (np.2.trackPageView w pv).map (fun c => (np.1, c))
    else [])).flatten

/-- Replace the entry stored under a name (Map update; keys are unique). -/
def updateEntry (l : List (ProviderName × Provider)) (n : ProviderName)
    (p : Provider) : List (ProviderName × Provider) :=
  l.map (fun np => if np.1 = n then (n, p) else np)

/-- AnalyticsProxy.enableProvider: look the name up; when found, call the
adapter's enable() (with its backend side effect); when unknown, emit a
console warning and return normally.  The Bool reports the warning. -/
def AnalyticsProxy.enableProvider (w : Window) (a : AnalyticsProxy)
    (n : ProviderName) : AnalyticsProxy × List BackendCall × Bool :=
  match a.providers.find? (fun np => np.1 = n) with
  | some np =>
    ({ a with providers := updateEntry a.providers n (np.2.enable w).1 },
     (np.2.enable w).2, false)
  | none => (a, [], true)

/-- AnalyticsProxy.disableProvider, symmetric to enableProvider. -/
def AnalyticsProxy.disableProvider (w : Window) (a : AnalyticsProxy)
    (n : ProviderName) : AnalyticsProxy × List BackendCall × Bool :=
  match a.providers.find? (fun np => np.1 = n) with
  | some np =>
    ({ a with providers := updateEntry a.providers n (np.2.disable w).1 },
     (np.2.disable w).2, false)
  | none => (a, [], true)

/-- AnalyticsProxy.enableAllProviders. -/
def AnalyticsProxy.enableAllProviders (w : Window) (a : AnalyticsProxy) :
    AnalyticsProxy × List BackendCall :=
  ({ a with providers := a.providers.map (fun np => (np.1, (np.2.enable w).1)) },
   (a.providers.map (fun np => (np.2.enable w).2)).flatten)

/-- AnalyticsProxy.disableAllProviders. -/
def AnalyticsProxy.disableAllProviders (w : Window) (a : AnalyticsProxy) :
    AnalyticsProxy × List BackendCall :=
  ({ a with providers := a.providers.map (fun np => (np.1, (np.2.disable w).1)) },
   (a.providers.map (fun np => (np.2.disable w).2)).flatten)

/-- AnalyticsProxy.getProviderStatus: name to isEnabled(), in registration
order. -/
def AnalyticsProxy.getProviderStatus (a : AnalyticsProxy) :
    List (ProviderName × Bool) :=
  a.providers.map (fun np => (np.1, np.2.isEnabled))

/-- AnalyticsProxy.isProviderEnabled: the adapter's flag, false for an
unregistered name. -/
def AnalyticsProxy.isProviderEnabled (a : AnalyticsProxy) (n : ProviderName) :
    Bool :=
  match a.providers.find? (fun np => np.1 = n) with
  | some np => np.2.isEnabled
  | none => false

/-- AnalyticsProxy.getAvailableProviders: registered names in registration
order. -/
def AnalyticsProxy.getAvailableProviders (a : AnalyticsProxy) :
    List ProviderName :=
  a.providers.map (fun np => np.1)

/-- Lookup in the record produced by getProviderStatus. -/
def statusLookup (st : List (ProviderName × Bool)) (n : ProviderName) :
    Option Bool :=
  (st.find? (fun nb => nb.1 = n)).map (fun nb => nb.2)

/-- A partial configuration as accepted by updateConfig; a present key
replaces the corresponding top-level value in the shallow merge. -/
structure ConfigPatch where
  providers : Option ProvidersConfig
  globalProperties : Option Obj
  enableDebug : Option Bool
deriving Repr, DecidableEq

/-- The top-level shallow merge of the partial configuration over the
current one. -/
def mergeConfig (c : AnalyticsProxyConfig) (n : ConfigPatch) :
    AnalyticsProxyConfig :=
  { providers := match n.providers with | some p => p | none => c.providers,
    globalProperties := match n.globalProperties with
                        | some g => some g
                        | none => c.globalProperties,
    enableDebug := match n.enableDebug with | some b => b | none => c.enableDebug }

/-- AnalyticsProxy.updateConfig: shallow-merge the patch over the current
configuration; when the patch carries globalProperties, merge and propagate
them; when it carries providers, clear the adapter map and rebuild it from
the merged configuration. -/
def AnalyticsProxy.updateConfig (a : AnalyticsProxy) (n : ConfigPatch) :
    AnalyticsProxy :=
  let a1 : AnalyticsProxy := { a with config := mergeConfig a.config n }
  let a2 : AnalyticsProxy :=
    match n.globalProperties with
    | some g => a1.setGlobalProperties g
    | none => a1
  match n.providers with
  | some _ => { a2 with providers := initializeProviders a2.config }
  | none => a2

/-- AnalyticsProxy.getConfig returns a shallow copy of the configuration. -/
def AnalyticsProxy.getConfig (a : AnalyticsProxy) : AnalyticsProxyConfig :=
  a.config

/- The fan-out loop shared verbatim by trackEvent, identifyUser and
trackPageView: `providers.forEach(p => { if (p.isEnabled()) p.call(payload) })`.
There is no try/catch in the dispatcher, so an error escaping an adapter's
own internal catch propagates out of the iteration.  For this shared loop an
adapter's behaviour during one dispatch is abstracted to its name, its flag,
and its invocation outcome. -/

structure DispatchEntry where
  name : String
  enabled : Bool
  call : Except String Unit

/-- The dispatch loop: the names invoked in order and the escaped error, if
any; an escaping error ends the iteration at the adapter that raised it. -/
def proxyFanOut : List DispatchEntry → List String × Option String
  | [] => ([], none)
  | d :: rest =>
    if d.enabled then
      match d.call with
      | Except.error e => ([d.name], some e)
      | Except.ok _ =>
        let r := proxyFanOut rest
        (d.name :: r.1, r.2)
    else proxyFanOut rest

/-- C2 counterexample: with two enabled adapters registered in order, the
first raising an error that escapes its own catch, the second adapter is not
invoked — the dispatcher does not isolate adapter invocations, contradicting
the claim that every adapter registered after a failing one is still
invoked. -/
theorem C2_counterexample :
    (proxyFanOut
      [{ name := "mixpanel", enabled := true, call := Except.error "boom" },
       { name := "ga4", enabled := true, call := Except.ok () }]).1 = ["mixpanel"]
    ∧ "ga4" ∉ (proxyFanOut
      [{ name := "mixpanel", enabled := true, call := Except.error "boom" },
       { name := "ga4", enabled := true, call := Except.ok () }]).1 := by
  decide

/-- C2 amended: the dispatcher's forEach has no try/catch, so when an enabled
adapter's invocation raises an error that escapes the adapter's own internal
catch, the error propagates out of the dispatcher call: the enabled adapters
registered before it were invoked, the failing adapter was invoked, and no
adapter registered after it is invoked. -/
theorem C2_dispatch_no_isolation (pre post : List DispatchEntry)
    (d : DispatchEntry) (e : String) (h1 : d.enabled = true)
    (h2 : d.call = Except.error e)
    (hpre : ∀ b ∈ pre, b.enabled = true → b.call = Except.ok ()) :
    proxyFanOut (pre ++ d :: post)
      = ((pre.filter (fun b => b.enabled)).map (fun b => b.name) ++ [d.name],
         some e) := by
  induction pre with
  | nil => simp [proxyFanOut, h1, h2]
  | cons b rest ih =>
    have ihr := ih (fun x hx => hpre x (List.mem_cons_of_mem _ hx))
    by_cases hb : b.enabled = true
    · have hcall := hpre b (List.mem_cons_self _ _) hb
      simp [proxyFanOut, hb, hcall, ihr]
    · simp [proxyFanOut, hb, ihr]

/-- Concrete instantiation of the C2 amended theorem: with adapters a, b, c
in order and b failing, a and b are invoked, c is not, and the error
escapes. -/
theorem C2_dispatch_no_isolation_witness :
    proxyFanOut
      [{ name := "a", enabled := true, call := Except.ok () },
       { name := "b", enabled := true, call := Except.error "boom" },
       { name := "c", enabled := true, call := Except.ok () }]
      = (["a", "b"], some "boom") := by
  have h := C2_dispatch_no_isolation
    [{ name := "a", enabled := true, call := Except.ok () }]
    [{ name := "c", enabled := true, call := Except.ok () }]
    { name := "b", enabled := true, call := Except.error "boom" } "boom"
    rfl rfl (by intro b hb _; simp at hb; rw [hb])
  simpa using h

theorem initializeProviders_enabled_false (cfg : AnalyticsProxyConfig)
    (np : ProviderName × Provider) (h : np ∈ initializeProviders cfg) :
    np.2.enabled = false := by
  unfold initializeProviders at h
  have hsingle : ∀ (k : ProviderName) (c : String),
      np ∈ [(k, mkProvider k c)] → np.2.enabled = false := by
    intro k c hm
    rw [List.mem_singleton.mp hm]
    rfl
  rcases List.mem_append.mp h with h | h
  · rcases List.mem_append.mp h with h | h
    · rcases List.mem_append.mp h with h | h
      · revert h
        split
        · exact hsingle _ _
        · intro h; cases h
      · revert h
        split
        · exact hsingle _ _
        · intro h; cases h
    · revert h
      split
      · exact hsingle _ _
      · intro h; cases h
  · revert h
    split
    · exact hsingle _ _
    · intro h; cases h

/-- C3 counterexample: a configuration with two eligible destinations, then
updateConfig carrying a providers block that only mentions ga4.  The claim
says every other previously-registered eligible destination (mixpanel) still
has a rebuilt adapter; in fact the shallow merge replaces the whole
providers block, so the rebuilt adapter set is empty. -/
theorem C3_counterexample :
    (mkAnalyticsProxy
      { providers := { mixpanel := some { enabled := true, credential := some "tok" },
                       ga4 := some { enabled := true, credential := some "G-1" },
                       logrocket := none, amplitude := none },
        globalProperties := none, enableDebug := false }).getAvailableProviders
      = [ProviderName.mixpanel, ProviderName.ga4]
    ∧ ((mkAnalyticsProxy
      { providers := { mixpanel := some { enabled := true, credential := some "tok" },
                       ga4 := some { enabled := true, credential := some "G-1" },
                       logrocket := none, amplitude := none },
        globalProperties := none, enableDebug := false }).updateConfig
      { providers := some { mixpanel := none,
                            ga4 := some { enabled := false, credential := some "G-1" },
                            logrocket := none, amplitude := none },
        globalProperties := none, enableDebug := none }).getAvailableProviders
      = [] := by
  decide

/-- C3 amended: updateConfig shallow-merges the partial configuration over
the current one at the top level, so a patch whose providers key is present
replaces the whole providers block; the adapter set is then torn down and
rebuilt from the merged configuration alone.  Every rebuilt adapter restarts
(enabled = false until its readiness sequence completes), and destinations
absent from the patch's providers block lose their adapters instead of
being rebuilt. -/
theorem C3_updateConfig_full_rebuild (a : AnalyticsProxy) (n : ConfigPatch)
    (pc : ProvidersConfig) (h : n.providers = some pc) :
    (a.updateConfig n).config.providers = pc
    ∧ (a.updateConfig n).providers
        = initializeProviders ((a.updateConfig n).config)
    ∧ ∀ np ∈ (a.updateConfig n).providers, np.2.enabled = false := by
  unfold AnalyticsProxy.updateConfig
  rw [h]
  cases hg : n.globalProperties with
  | none =>
    refine ⟨?_, rfl, ?_⟩
    · simp [mergeConfig, h]
    · intro np hnp
      exact initializeProviders_enabled_false _ np hnp
  | some g =>
    refine ⟨?_, rfl, ?_⟩
    · simp [AnalyticsProxy.setGlobalProperties, mergeConfig, h]
    · intro np hnp
      exact initializeProviders_enabled_false _ np hnp

/-- Concrete instantiation of the C3 amended theorem at the counterexample
configuration. -/
theorem C3_updateConfig_full_rebuild_witness :
    ((mkAnalyticsProxy
      { providers := { mixpanel := some { enabled := true, credential := some "tok" },
                       ga4 := some { enabled := true, credential := some "G-1" },
                       logrocket := none, amplitude := none },
        globalProperties := none, enableDebug := false }).updateConfig
      { providers := some { mixpanel := none,
                            ga4 := some { enabled := false, credential := some "G-1" },
                            logrocket := none, amplitude := none },
        globalProperties := none, enableDebug := none }).config.providers
      = { mixpanel := none,
          ga4 := some { enabled := false, credential := some "G-1" },
          logrocket := none, amplitude := none } :=
  (C3_updateConfig_full_rebuild
    (mkAnalyticsProxy
      { providers := { mixpanel := some { enabled := true, credential := some "tok" },
                       ga4 := some { enabled := true, credential := some "G-1" },
                       logrocket := none, amplitude := none },
        globalProperties := none, enableDebug := false })
    { providers := some { mixpanel := none,
                          ga4 := some { enabled := false, credential := some "G-1" },
                          logrocket := none, amplitude := none },
      globalProperties := none, enableDebug := none }
    { mixpanel := none,
      ga4 := some { enabled := false, credential := some "G-1" },
      logrocket := none, amplitude := none } rfl).1

/-- C4 counterexample: a mixpanel adapter, enabled, with global property
a = 1; identifyUser with an empty call-scoped property bag delivers an empty
people.set payload to the backend, while the merge the claim requires would
deliver a = 1 — identifyUser performs no global-property enrichment. -/
theorem C4_counterexample :
    Provider.identifyUser
      { mixpanel := true, gtag := true, logRocket := true, amplitude := true }
      { kind := ProviderName.mixpanel, name := "Mixpanel", enabled := true,
        globalProperties := [("a", some "1")], credential := "tok" }
      { id := "u1", properties := some [] }
      = [BackendCall.mpIdentify "u1", BackendCall.mpPeopleSet []]
    ∧ objGet (objSpread [("a", some "1")] []) "a" = some (some "1")
    ∧ objGet ([] : Obj) "a" = none := by
  decide

/-- C4 amended: for an enabled adapter, trackEvent and trackPageView enrich
their payloads by spreading the local global-properties bag under the
call-scoped properties, with call-scoped keys winning on collision;
identifyUser forwards the user payload unchanged to the backend call, with
no enrichment. -/
theorem C4_enrichment (w : Window) (p : Provider) (e : AnalyticsEvent)
    (pv : AnalyticsPageView) (u : AnalyticsUser) (c : Obj) (k : String)
    (hen : p.enabled = true) (he : e.properties = some c)
    (hnd : (c.map (fun kv => kv.1)).Nodup) :
    Provider.trackEvent w p e = p.trackEventInternal w (p.enrichEvent e)
    ∧ (p.enrichEvent e).properties = some (objSpread p.globalProperties c)
    ∧ objGet (objSpread p.globalProperties c) k
        = (match objGet c k with
           | some v => some v
           | none => objGet p.globalProperties k)
    ∧ Provider.trackPageView w p pv
        = p.trackPageViewInternal w (p.enrichPageView pv)
    ∧ (p.enrichPageView pv).properties
        = some (objSpread p.globalProperties
            (match pv.properties with | some ps => ps | none => []))
    ∧ Provider.identifyUser w p u = p.identifyUserInternal w u := by
  refine ⟨?_, ?_, ?_, ?_, rfl, ?_⟩
  · simp [Provider.trackEvent, hen]
  · simp [Provider.enrichEvent, he]
  · exact objGet_objSpread p.globalProperties c k hnd
  · simp [Provider.trackPageView, hen]
  · simp [Provider.identifyUser, hen]

/-- Concrete instantiation of the C4 amended theorem: global a = 1 with
call-scoped a = 2 delivers a = 2 (call-scoped wins). -/
theorem C4_enrichment_witness :
    objGet (objSpread [("a", some "1")] [("a", some "2")]) "a"
      = some (some "2") :=
  (C4_enrichment
    { mixpanel := true, gtag := true, logRocket := true, amplitude := true }
    { kind := ProviderName.mixpanel, name := "Mixpanel", enabled := true,
      globalProperties := [("a", some "1")], credential := "tok" }
    { name := "x", properties := some [("a", some "2")], userId := none,
      timestamp := none }
    { url := "/", title := none, properties := none }
    { id := "u", properties := none }
    [("a", some "2")] "a" rfl rfl (by decide)).2.2.1

/-- C5 counterexample: with a readiness predicate that never holds, the poll
evaluates the predicate 11 times (the immediate check plus 10 retries), not
at most 10 as claimed. -/
theorem C5_counterexample :
    pollChecks (runReadinessPoll (fun _ => false)).1 = 11
    ∧ ¬ pollChecks (runReadinessPoll (fun _ => false)).1 ≤ 10 := by
  decide

/-- C5 amended: the readiness predicate is checked at most 11 times (one
immediate check plus up to 10 retries), every retry delay is the fixed 100
time units, the first successful check makes the poll succeed and enable()
sets the adapter's flag, and when the predicate fails on all 11 attempt
indices the poll gives up with the failure logged, the flag still false, and
exactly 11 checks spent — the poll always terminates within this budget. -/
theorem C5_poll_bounded (ready : Nat → Bool) (p : Provider)
    (hp : p.enabled = false) :
    pollChecks (runReadinessPoll ready).1 ≤ 11
    ∧ (∀ ms, PollEvent.sleep ms ∈ (runReadinessPoll ready).1 → ms = 100)
    ∧ ((∃ i, i ≤ 10 ∧ ready i = true) →
        (runReadinessPoll ready).2 = true
        ∧ (applyPoll ready p).enabled = true)
    ∧ ((∀ i, i ≤ 10 → ready i = false) →
        (runReadinessPoll ready).2 = false
        ∧ (applyPoll ready p).enabled = false
        ∧ PollEvent.failLog ∈ (runReadinessPoll ready).1
        ∧ pollChecks (runReadinessPoll ready).1 = 11) := by
  refine ⟨?_, ?_, ?_, ?_⟩
  · exact checkLoopAux_checks_le ready 10 0
  · intro ms hm
    exact checkLoopAux_sleep_100 ready 10 0 ms hm
  · rintro ⟨i, hi, hr⟩
    have hs : (runReadinessPoll ready).2 = true := by
      rw [runReadinessPoll, checkLoopAux_success_iff]
      exact ⟨i, hi, by simpa using hr⟩
    refine ⟨hs, ?_⟩
    simp [applyPoll, hs]
  · intro hall
    have ht := checkLoopAux_timeout ready 10 0 (fun i hi => by simpa using hall i hi)
    refine ⟨ht.1, ?_, ht.2.2, ht.2.1⟩
    simp [applyPoll, runReadinessPoll, ht.1, hp]

/-- Concrete instantiation of the C5 amended theorem: a predicate first true
at attempt 3 succeeds and enables the adapter; the never-true predicate
times out with the flag still false after exactly 11 checks. -/
theorem C5_poll_bounded_witness :
    ((runReadinessPoll (fun i => decide (i = 3))).2 = true
      ∧ (applyPoll (fun i => decide (i = 3))
          (mkProvider ProviderName.amplitude "key")).enabled = true)
    ∧ ((runReadinessPoll (fun _ => false)).2 = false
      ∧ (applyPoll (fun _ => false)
          (mkProvider ProviderName.amplitude "key")).enabled = false
      ∧ PollEvent.failLog ∈ (runReadinessPoll (fun _ => false)).1
      ∧ pollChecks (runReadinessPoll (fun _ => false)).1 = 11) :=
  ⟨(C5_poll_bounded (fun i => decide (i = 3))
      (mkProvider ProviderName.amplitude "key") rfl).2.2.1
      ⟨3, by decide, by decide⟩,
   (C5_poll_bounded (fun _ => false)
      (mkProvider ProviderName.amplitude "key") rfl).2.2.2
      (fun i hi => rfl)⟩

theorem Provider.disable_enabled_false (w : Window) (p : Provider) :
    (Provider.disable w p).1.enabled = false := by
  unfold Provider.disable
  cases p.kind <;> rfl

theorem disableProvider_key_disabled (w : Window) (a : AnalyticsProxy)
    (d : ProviderName) (np : ProviderName × Provider)
    (h : np ∈ (AnalyticsProxy.disableProvider w a d).1.providers)
    (hk : np.1 = d) : np.2.enabled = false := by
  unfold AnalyticsProxy.disableProvider at h
  cases hf : a.providers.find? (fun np => np.1 = d) with
  | none =>
    rw [hf] at h
    have hne := List.find?_eq_none.mp hf np h
    simp at hne
    exact absurd hk hne
  | some np0 =>
    rw [hf] at h
    unfold updateEntry at h
    rcases List.mem_map.mp h with ⟨nq, hnq, heq⟩
    by_cases hq : nq.1 = d
    · rw [if_pos hq] at heq
      rw [← heq]
      exact Provider.disable_enabled_false w np0.2
    · rw [if_neg hq] at heq
      rw [← heq] at hk
      exact absurd hk hq

theorem dispatchCalls_key_enabled (l : List (ProviderName × Provider))
    (f : ProviderName × Provider → List BackendCall) (d : ProviderName)
    (c : BackendCall)
    (h : (d, c) ∈ (l.map (fun np =>
      if np.2.isEnabled then (f np).map (fun c => (np.1, c)) else [])).flatten) :
    ∃ np ∈ l, np.1 = d ∧ np.2.isEnabled = true ∧ c ∈ f np := by
  rcases List.mem_flatten.mp h with ⟨sub, hsub, hc⟩
  rcases List.mem_map.mp hsub with ⟨np, hnp, heq⟩
  subst heq
  by_cases hen : np.2.isEnabled = true
  · rw [if_pos hen] at hc
    rcases List.mem_map.mp hc with ⟨c0, hc0, heq2⟩
    have hpair : np.1 = d ∧ c0 = c := by
      constructor
      · exact congrArg Prod.fst heq2
      · exact congrArg Prod.snd heq2
    refine ⟨np, hnp, hpair.1, hen, ?_⟩
    rw [← hpair.2]
    exact hc0
  · rw [if_neg hen] at hc
    exact absurd hc (List.not_mem_nil _)

/-- C6: an adapter whose flag is off treats all three tracking operations as
no-ops after logging — no backend call is emitted and the adapter state is
untouched (the source methods return before doing anything) — and after the
dispatcher's disableProvider(d) no backend call tagged d is produced by any
of trackEvent, identifyUser or trackPageView. -/
theorem C6_disabled_noop (w : Window) (p : Provider) (e : AnalyticsEvent)
    (u : AnalyticsUser) (pv : AnalyticsPageView) (hp : p.enabled = false) :
    Provider.trackEvent w p e = []
    ∧ Provider.identifyUser w p u = []
    ∧ Provider.trackPageView w p pv = []
    ∧ ∀ (a : AnalyticsProxy) (d : ProviderName) (c : BackendCall),
        (d, c) ∉ AnalyticsProxy.trackEvent w (AnalyticsProxy.disableProvider w a d).1 e
        ∧ (d, c) ∉ AnalyticsProxy.identifyUser w (AnalyticsProxy.disableProvider w a d).1 u
        ∧ (d, c) ∉ AnalyticsProxy.trackPageView w (AnalyticsProxy.disableProvider w a d).1 pv := by
  refine ⟨by simp [Provider.trackEvent, hp], by simp [Provider.identifyUser, hp],
    by simp [Provider.trackPageView, hp], ?_⟩
  intro a d c
  refine ⟨?_, ?_, ?_⟩
  · intro hmem
    rcases dispatchCalls_key_enabled _ (fun np => np.2.trackEvent w e) d c hmem
      with ⟨np, hnp, hk, hen, _⟩
    have hd : np.2.isEnabled = false := disableProvider_key_disabled w a d np hnp hk
    rw [hd] at hen
    cases hen
  · intro hmem
    rcases dispatchCalls_key_enabled _ (fun np => np.2.identifyUser w u) d c hmem
      with ⟨np, hnp, hk, hen, _⟩
    have hd : np.2.isEnabled = false := disableProvider_key_disabled w a d np hnp hk
    rw [hd] at hen
    cases hen
  · intro hmem
    rcases dispatchCalls_key_enabled _ (fun np => np.2.trackPageView w pv) d c hmem
      with ⟨np, hnp, hk, hen, _⟩
    have hd : np.2.isEnabled = false := disableProvider_key_disabled w a d np hnp hk
    rw [hd] at hen
    cases hen

/-- Concrete instantiation of C6: a disabled mixpanel adapter emits nothing
on any of the three operations, and after disableProvider(mixpanel) no
mixpanel-tagged track call is emitted. -/
theorem C6_disabled_noop_witness :
    Provider.trackEvent
      { mixpanel := true, gtag := true, logRocket := true, amplitude := true }
      (mkProvider ProviderName.mixpanel "tok")
      { name := "x", properties := none, userId := none, timestamp := none } = []
    ∧ Provider.identifyUser
      { mixpanel := true, gtag := true, logRocket := true, amplitude := true }
      (mkProvider ProviderName.mixpanel "tok") { id := "u", properties := none } = []
    ∧ Provider.trackPageView
      { mixpanel := true, gtag := true, logRocket := true, amplitude := true }
      (mkProvider ProviderName.mixpanel "tok")
      { url := "/", title := none, properties := none } = [] :=
  ⟨(C6_disabled_noop
      { mixpanel := true, gtag := true, logRocket := true, amplitude := true }
      (mkProvider ProviderName.mixpanel "tok")
      { name := "x", properties := none, userId := none, timestamp := none }
      { id := "u", properties := none }
      { url := "/", title := none, properties := none } rfl).1,
   (C6_disabled_noop
      { mixpanel := true, gtag := true, logRocket := true, amplitude := true }
      (mkProvider ProviderName.mixpanel "tok")
      { name := "x", properties := none, userId := none, timestamp := none }
      { id := "u", properties := none }
      { url := "/", title := none, properties := none } rfl).2.1,
   (C6_disabled_noop
      { mixpanel := true, gtag := true, logRocket := true, amplitude := true }
      (mkProvider ProviderName.mixpanel "tok")
      { name := "x", properties := none, userId := none, timestamp := none }
      { id := "u", properties := none }
      { url := "/", title := none, properties := none } rfl).2.2.1⟩

/-- The fixed declaration order of the four destinations, as they appear in
the configuration type and in initializeProviders. -/
def declaredProviderOrder : List ProviderName :=
  [ProviderName.mixpanel, ProviderName.ga4, ProviderName.logrocket,
   ProviderName.amplitude]

/-- The sub-configuration of one named destination. -/
def confEntry (ps : ProvidersConfig) : ProviderName → Option ProviderConf
  | ProviderName.mixpanel => ps.mixpanel
  | ProviderName.ga4 => ps.ga4
  | ProviderName.logrocket => ps.logrocket
  | ProviderName.amplitude => ps.amplitude

/-- C7: the constructed dispatcher holds exactly one adapter per eligible
destination (enabled and with a present, non-empty credential), silently
omits every ineligible destination, and getAvailableProviders() returns
exactly the eligible destination names in declaration order. -/
theorem C7_eligibility (cfg : AnalyticsProxyConfig) :
    (mkAnalyticsProxy cfg).getAvailableProviders
      = declaredProviderOrder.filter (fun n => eligEntry (confEntry cfg.providers n))
    ∧ (mkAnalyticsProxy cfg).getAvailableProviders.Nodup
    ∧ ∀ n : ProviderName,
        n ∈ (mkAnalyticsProxy cfg).getAvailableProviders
          ↔ eligEntry (confEntry cfg.providers n) = true := by
  have hav : (mkAnalyticsProxy cfg).getAvailableProviders
      = (initializeProviders cfg).map (fun np => np.1) := by
    unfold mkAnalyticsProxy AnalyticsProxy.getAvailableProviders
      AnalyticsProxy.setGlobalProperties
    simp [List.map_map]
  have hmain : (initializeProviders cfg).map (fun np => np.1)
      = declaredProviderOrder.filter
          (fun n => eligEntry (confEntry cfg.providers n)) := by
    by_cases h1 : eligEntry cfg.providers.mixpanel = true <;>
    by_cases h2 : eligEntry cfg.providers.ga4 = true <;>
    by_cases h3 : eligEntry cfg.providers.logrocket = true <;>
    by_cases h4 : eligEntry cfg.providers.amplitude = true <;>
      simp [initializeProviders, declaredProviderOrder, confEntry, h1, h2, h3, h4]
  rw [hav, hmain]
  refine ⟨rfl, ?_, ?_⟩
  · exact List.Nodup.filter _ (by decide)
  · intro n
    rw [List.mem_filter]
    have hmem : n ∈ declaredProviderOrder := by cases n <;> decide
    simp [hmem]

/-- C8: enableProvider and disableProvider on a name with no registered
adapter emit the console warning and return normally; the dispatcher state
(adapter set, every flag, configuration, global properties) is returned
unchanged and no backend call is made. -/
theorem C8_unknown_provider (w : Window) (a : AnalyticsProxy) (n : ProviderName)
    (h : a.providers.find? (fun np => np.1 = n) = none) :
    AnalyticsProxy.enableProvider w a n = (a, [], true)
    ∧ AnalyticsProxy.disableProvider w a n = (a, [], true) := by
  unfold AnalyticsProxy.enableProvider AnalyticsProxy.disableProvider
  rw [h]
  exact ⟨rfl, rfl⟩

/-- Concrete instantiation of C8: looking up ga4 in a dispatcher built with
no eligible destination warns and leaves the dispatcher unchanged. -/
theorem C8_unknown_provider_witness :
    AnalyticsProxy.enableProvider
      { mixpanel := true, gtag := true, logRocket := true, amplitude := true }
      (mkAnalyticsProxy
        { providers := { mixpanel := none, ga4 := none, logrocket := none,
                         amplitude := none },
          globalProperties := none, enableDebug := false }) ProviderName.ga4
      = (mkAnalyticsProxy
          { providers := { mixpanel := none, ga4 := none, logrocket := none,
                           amplitude := none },
            globalProperties := none, enableDebug := false }, [], true)
    ∧ AnalyticsProxy.disableProvider
      { mixpanel := true, gtag := true, logRocket := true, amplitude := true }
      (mkAnalyticsProxy
        { providers := { mixpanel := none, ga4 := none, logrocket := none,
                         amplitude := none },
          globalProperties := none, enableDebug := false }) ProviderName.ga4
      = (mkAnalyticsProxy
          { providers := { mixpanel := none, ga4 := none, logrocket := none,
                           amplitude := none },
            globalProperties := none, enableDebug := false }, [], true) :=
  C8_unknown_provider
    { mixpanel := true, gtag := true, logRocket := true, amplitude := true }
    (mkAnalyticsProxy
      { providers := { mixpanel := none, ga4 := none, logrocket := none,
                       amplitude := none },
        globalProperties := none, enableDebug := false })
    ProviderName.ga4 (by decide)

theorem mapMix_get_not_mem (props : Obj) (acc : Obj) (q : String)
    (h : q ∉ props.map (fun kv => mapMixpanelKey kv.1)) :
    objGet (props.foldl (fun o kv => objSet o (mapMixpanelKey kv.1) kv.2) acc) q
      = objGet acc q := by
  induction props generalizing acc with
  | nil => rfl
  | cons kv rest ih =>
    simp only [List.map_cons, List.mem_cons] at h
    push_neg at h
    rw [List.foldl_cons, ih _ h.2, objGet_objSet]
    simp [h.1]

theorem mapMix_get_mem (props : Obj) (acc : Obj) (k : String) (v : JsVal)
    (hnd : (props.map (fun kv => mapMixpanelKey kv.1)).Nodup)
    (hm : (k, v) ∈ props) :
    objGet (props.foldl (fun o kv => objSet o (mapMixpanelKey kv.1) kv.2) acc)
      (mapMixpanelKey k) = some v := by
  induction props generalizing acc with
  | nil => cases hm
  | cons kv rest ih =>
    rw [List.foldl_cons]
    simp only [List.map_cons, List.nodup_cons] at hnd
    rcases List.mem_cons.mp hm with h | h
    · cases h
      rw [mapMix_get_not_mem rest _ _ hnd.1, objGet_objSet]
      simp
    · exact ih _ hnd.2 h

/-- C9 counterexample: the input bag carrying both firstName and first_name
(two distinct keys, both listed in the table and mapped to $first_name)
collapses into one entry — the value of the earlier key is dropped, so the
remapping does not preserve all values as claimed. -/
theorem C9_counterexample :
    mapToMixpanelProperties [("firstName", some "Ann"), ("first_name", some "Bea")]
      = [("$first_name", some "Bea")]
    ∧ some "Ann" ∉ (mapToMixpanelProperties
        [("firstName", some "Ann"), ("first_name", some "Bea")]).map
        (fun kv => kv.2) := by
  decide

/-- C9 amended: the Mixpanel adapter owns the fixed remapping table, applied
on identify calls and only there — trackEvent and trackPageView forward
property keys unremapped.  Whenever no two input keys collide after mapping,
the remapping preserves every value under its mapped key and leaves keys
absent from the table unchanged; colliding keys collapse with the later
entry winning. -/
theorem C9_mixpanel_remap (props ps : Obj) (u : AnalyticsUser) (p : Provider)
    (w : Window) (e : AnalyticsEvent) (pv : AnalyticsPageView) (k : String)
    (v : JsVal)
    (hk : p.kind = ProviderName.mixpanel) (hw : w.mixpanel = true)
    (hu : u.properties = some props)
    (hnd : (props.map (fun kv => mapMixpanelKey kv.1)).Nodup)
    (hm : (k, v) ∈ props)
    (hpv : pv.properties = some ps)
    (hndp : (ps.map (fun kv => kv.1)).Nodup) :
    Provider.identifyUserInternal w p u
      = [BackendCall.mpIdentify u.id,
         BackendCall.mpPeopleSet (mapToMixpanelProperties props)]
    ∧ objGet (mapToMixpanelProperties props) (mapMixpanelKey k) = some v
    ∧ (∀ q, mixpanelPropertyMap.find? (fun kv => kv.1 = q) = none →
        mapMixpanelKey q = q)
    ∧ Provider.trackEventInternal w p e = [BackendCall.mpTrack e.name e.properties]
    ∧ Provider.trackPageViewInternal w p pv
        = [BackendCall.mpTrack "Page View" (some (pageViewLiteral pv))]
    ∧ ∀ q, q ≠ "url" → q ≠ "title" →
        objGet (pageViewLiteral pv) q = objGet ps q := by
  refine ⟨?_, ?_, ?_, ?_, ?_, ?_⟩
  · simp [Provider.identifyUserInternal, hk, hw, hu]
  · exact mapMix_get_mem props [] k v hnd hm
  · intro q hfind
    unfold mapMixpanelKey
    rw [hfind]
  · simp [Provider.trackEventInternal, hk, hw]
  · simp [Provider.trackPageViewInternal, hk, hw]
  · intro q hq1 hq2
    unfold pageViewLiteral
    rw [hpv]
    rw [objGet_objSpread _ ps q hndp]
    have hbase : objGet [("url", some pv.url), ("title", pv.title)] q = none := by
      simp [objGet, Ne.symm hq1, Ne.symm hq2]
    rw [hbase]
    cases objGet ps q <;> rfl

/-- Concrete instantiation of the C9 amended theorem: email is remapped to
$email with its value preserved, an unlisted key stays itself, trackEvent
and trackPageView forward properties unremapped. -/
theorem C9_mixpanel_remap_witness :
    Provider.identifyUserInternal
      { mixpanel := true, gtag := true, logRocket := true, amplitude := true }
      { kind := ProviderName.mixpanel, name := "Mixpanel", enabled := true,
        globalProperties := [], credential := "tok" }
      { id := "u", properties := some [("email", some "e"), ("plan", some "pro")] }
      = [BackendCall.mpIdentify "u",
         BackendCall.mpPeopleSet (mapToMixpanelProperties
           [("email", some "e"), ("plan", some "pro")])]
    ∧ objGet (mapToMixpanelProperties [("email", some "e"), ("plan", some "pro")])
        (mapMixpanelKey "email") = some (some "e")
    ∧ mapMixpanelKey "plan" = "plan" := by
  have h := C9_mixpanel_remap
    [("email", some "e"), ("plan", some "pro")] [("referrer", some "r")]
    { id := "u", properties := some [("email", some "e"), ("plan", some "pro")] }
    { kind := ProviderName.mixpanel, name := "Mixpanel", enabled := true,
      globalProperties := [], credential := "tok" }
    { mixpanel := true, gtag := true, logRocket := true, amplitude := true }
    { name := "x", properties := none, userId := none, timestamp := none }
    { url := "/", title := none, properties := some [("referrer", some "r")] }
    "email" (some "e") rfl rfl rfl (by decide) (by decide) rfl (by decide)
  exact ⟨h.1, h.2.1, h.2.2.1 "plan" (by decide)⟩

theorem find?_status (l : List (ProviderName × Provider)) (n : ProviderName)
    (np : ProviderName × Provider)
    (h : l.find? (fun np => np.1 = n) = some np) :
    (l.map (fun np => (np.1, np.2.isEnabled))).find? (fun nb => nb.1 = n)
      = some (np.1, np.2.isEnabled) := by
  induction l with
  | nil => simp at h
  | cons kv rest ih =>
    by_cases hk : kv.1 = n
    · rw [List.find?_cons_of_pos _ (by simpa using hk)] at h
      have hkv : kv = np := by simpa using h
      rw [List.map_cons, List.find?_cons_of_pos _ (by simpa using hk), hkv]
    · rw [List.find?_cons_of_neg _ (by simpa using hk)] at h
      rw [List.map_cons, List.find?_cons_of_neg _ (by simpa using hk)]
      exact ih h

/-- C10: isProviderEnabled on an unregistered name returns false without
error, and for every registered name the entry in getProviderStatus() equals
isProviderEnabled — both report the adapter's flag, independent of
readiness. -/
theorem C10_status_consistency (a : AnalyticsProxy) (n : ProviderName) :
    (a.providers.find? (fun np => np.1 = n) = none →
      AnalyticsProxy.isProviderEnabled a n = false)
    ∧ ∀ np, a.providers.find? (fun np => np.1 = n) = some np →
        statusLookup (AnalyticsProxy.getProviderStatus a) n
          = some (AnalyticsProxy.isProviderEnabled a n) := by
  constructor
  · intro h
    unfold AnalyticsProxy.isProviderEnabled
    rw [h]
  · intro np h
    unfold statusLookup AnalyticsProxy.getProviderStatus
      AnalyticsProxy.isProviderEnabled
    rw [h, find?_status a.providers n np h]
    rfl

/-- Concrete instantiation of C10 on a dispatcher with one mixpanel adapter:
the unregistered ga4 reports false, and the registered mixpanel's
getProviderStatus entry equals isProviderEnabled. -/
theorem C10_status_consistency_witness :
    AnalyticsProxy.isProviderEnabled
      (mkAnalyticsProxy
        { providers := { mixpanel := some { enabled := true, credential := some "tok" },
                         ga4 := none, logrocket := none, amplitude := none },
          globalProperties := none, enableDebug := false }) ProviderName.ga4 = false
    ∧ statusLookup
        (AnalyticsProxy.getProviderStatus
          (mkAnalyticsProxy
            { providers := { mixpanel := some { enabled := true, credential := some "tok" },
                             ga4 := none, logrocket := none, amplitude := none },
              globalProperties := none, enableDebug := false }))
        ProviderName.mixpanel
      = some (AnalyticsProxy.isProviderEnabled
          (mkAnalyticsProxy
            { providers := { mixpanel := some { enabled := true, credential := some "tok" },
                             ga4 := none, logrocket := none, amplitude := none },
              globalProperties := none, enableDebug := false })
          ProviderName.mixpanel) :=
  ⟨(C10_status_consistency
      (mkAnalyticsProxy
        { providers := { mixpanel := some { enabled := true, credential := some "tok" },
                         ga4 := none, logrocket := none, amplitude := none },
          globalProperties := none, enableDebug := false }) ProviderName.ga4).1
      (by decide),
   (C10_status_consistency
      (mkAnalyticsProxy
        { providers := { mixpanel := some { enabled := true, credential := some "tok" },
                         ga4 := none, logrocket := none, amplitude := none },
          globalProperties := none, enableDebug := false }) ProviderName.mixpanel).2
      (ProviderName.mixpanel,
        Provider.setGlobalProperties (mkProvider ProviderName.mixpanel "tok") [])
      (by decide)⟩
